import Mathlib

/-!
Verification of the transactional resource-execution core of the
effect-prisma-generator repository.

The first part embeds the `acquireUseReleaseWithErrors` combinator of
`src/tests/acquireUseReleaseWithErrors.test.ts` (lines 18-42) into Lean: an
Effect value is modelled as a deep-embedded computation over a mutable state
of type `sigma`, a typed error channel `E`, a defect channel (string
payloads), and an interruption discipline.  Interruption is modelled by a
signal `sig : Option Nat`: once the interpreter has executed at least `k`
primitive steps (for `sig = some k`) an interrupt is pending, and it takes
effect exactly at the next evaluation boundary whose region is interruptible.

The second part models the transaction manager and the error classifier; their
implementation is not part of the sources of the repository (only its tests,
README documentation and the changelog are), so those definitions are modelled
from the specification, as marked on each one.
-/

/-- Cause of a failed computation: a typed failure in the error channel, a
defect (unrecoverable, carries an opaque message), or an interruption. -/
inductive Cause (E : Type) where
  | fail (e : E)
  | die (msg : String)
  | interrupt
deriving DecidableEq

/-- Exit of a computation: success with a value, or failure with a cause. -/
inductive Exit (E A : Type) where
  | success (a : A)
  | failCause (c : Cause E)
deriving DecidableEq

/-- Deep embedding of the fragment of the Effect library used by
`acquireUseReleaseWithErrors`: pure results, typed failures (`Effect.fail`),
defects (`Effect.die`), returning an already-computed exit (an `Exit` is
itself an Effect in effect-ts), synchronous state effects (`Effect.sync`),
sequencing (`Effect.flatMap`), capture of an exit followed by a continuation
(`Effect.flatMap(Effect.exit m, k)`), `Effect.uninterruptibleMask` (the body
receives the interruptibility of the enclosing region, which is what the
`restore` function re-installs), and explicitly setting the interruptibility
of a subcomputation (`restore` / `Effect.uninterruptible`). -/
inductive Eff (σ E : Type) : Type → Type 1 where
  | succeed {A : Type} (a : A) : Eff σ E A
  | failE {A : Type} (e : E) : Eff σ E A
  | die {A : Type} (msg : String) : Eff σ E A
  | done {A : Type} (ex : Exit E A) : Eff σ E A
  | sync {A : Type} (f : σ → σ × A) : Eff σ E A
  | flatMap {A B : Type} (m : Eff σ E A) (k : A → Eff σ E B) : Eff σ E B
  | catchExit {A B : Type} (m : Eff σ E A) (k : Exit E A → Eff σ E B) : Eff σ E B
  | mask {A : Type} (f : Bool → Eff σ E A) : Eff σ E A
  | setInterruptible {A : Type} (b : Bool) (m : Eff σ E A) : Eff σ E A

/-- Whether the pending interrupt fires now: the current region must be
interruptible and the signal threshold must have been reached by the step
counter. -/
def interruptNow (sig : Option Nat) (intr : Bool) (st : Nat) : Bool :=
  intr && (match sig with
    | none => false
    | some k => decide (k ≤ st))

/-- Interpreter for `Eff`: runs a computation from state `s`, step counter
`st`, region interruptibility `intr`, under interruption signal `sig`.
Returns the exit together with the final state and step counter.  Every
constructor is an evaluation boundary at which a pending interrupt can take
effect when the region is interruptible; leaves advance the step counter. -/
def runEff {σ E : Type} : {A : Type} → Eff σ E A → σ → Nat → Bool → Option Nat → Exit E A × σ × Nat
  | _, .succeed a, s, st, intr, sig =>
    if interruptNow sig intr st then (.failCause .interrupt, s, st)
    else (.success a, s, st + 1)
  | _, .failE e, s, st, intr, sig =>
    if interruptNow sig intr st then (.failCause .interrupt, s, st)
    else (.failCause (.fail e), s, st + 1)
  | _, .die msg, s, st, intr, sig =>
    if interruptNow sig intr st then (.failCause .interrupt, s, st)
    else (.failCause (.die msg), s, st + 1)
  | _, .done ex, s, st, intr, sig =>
    if interruptNow sig intr st then (.failCause .interrupt, s, st)
    else (ex, s, st + 1)
  | _, .sync f, s, st, intr, sig =>
    if interruptNow sig intr st then (.failCause .interrupt, s, st)
    else (.success (f s).2, (f s).1, st + 1)
  | _, .flatMap m k, s, st, intr, sig =>
    if interruptNow sig intr st then (.failCause .interrupt, s, st)
    else
      match runEff m s st intr sig with
      | (.success a, s1, st1) => runEff (k a) s1 st1 intr sig
      | (.failCause c, s1, st1) => (.failCause c, s1, st1)
  | _, .catchExit m k, s, st, intr, sig =>
    if interruptNow sig intr st then (.failCause .interrupt, s, st)
    else
      match runEff m s st intr sig with
      | (ex, s1, st1) => runEff (k ex) s1 st1 intr sig
  | _, .mask f, s, st, intr, sig =>
    if interruptNow sig intr st then (.failCause .interrupt, s, st)
    else runEff (f intr) s st false sig
  | _, .setInterruptible b m, s, st, intr, sig =>
    if interruptNow sig intr st then (.failCause .interrupt, s, st)
    else runEff m s st b sig

/-- Embedding of `acquireUseReleaseWithErrors` from
`src/tests/acquireUseReleaseWithErrors.test.ts` (lines 18-42):

  Effect.uninterruptibleMask((restore) =>
    Effect.flatMap(acquire, (a) =>
      Effect.flatMap(Effect.exit(restore(use(a))), (exit) =>
        Effect.flatMap(Effect.exit(Effect.uninterruptible(release(a, exit))),
          (releaseExit) =>
            if (Exit.isFailure(releaseExit)) return releaseExit
            return exit))))

`Effect.flatMap(Effect.exit(..), k)` is embedded as `Eff.catchExit`,
`restore(..)` as re-installing the interruptibility the mask body received,
`Effect.uninterruptible(..)` as `setInterruptible false`, and returning an
exit value as `Eff.done` (returning `releaseExit as any` on the failure
branch only transports its cause, which is error-type independent). -/
def acquireUseReleaseWithErrors {σ E A B X : Type}
    (acquire : Eff σ E A) (use : A → Eff σ E B)
    (release : A → Exit E B → Eff σ E X) : Eff σ E B :=
  Eff.mask fun restore =>
    Eff.flatMap acquire fun a =>
      Eff.catchExit (Eff.setInterruptible restore (use a)) fun exit =>
        Eff.catchExit (Eff.setInterruptible false (release a exit)) fun releaseExit =>
          match releaseExit with
          | .failCause c => Eff.done (.failCause c)
          | .success _ => Eff.done exit

/-- Computations that never re-install interruptibility: every subterm keeps
running at the ambient region flag (no `setInterruptible true`, no exits
injecting interruption).  User-supplied acquire and release actions in the
repository are of this shape (they never call `restore`). -/
inductive NoRestore {σ E : Type} : {A : Type} → Eff σ E A → Prop where
  | succeed {A : Type} (a : A) : NoRestore (.succeed a)
  | failE {A : Type} (e : E) : NoRestore (Eff.failE (A := A) e)
  | die {A : Type} (msg : String) : NoRestore (Eff.die (σ := σ) (E := E) (A := A) msg)
  | done {A : Type} (ex : Exit E A) : NoRestore (Eff.done (σ := σ) ex)
  | sync {A : Type} (f : σ → σ × A) : NoRestore (.sync f)
  | flatMap {A B : Type} {m : Eff σ E A} {k : A → Eff σ E B} :
      NoRestore m → (∀ a, NoRestore (k a)) → NoRestore (.flatMap m k)
  | catchExit {A B : Type} {m : Eff σ E A} {k : Exit E A → Eff σ E B} :
      NoRestore m → (∀ ex, NoRestore (k ex)) → NoRestore (.catchExit m k)
  | mask {A : Type} {f : Bool → Eff σ E A} :
      (∀ b, NoRestore (f b)) → NoRestore (.mask f)
  | setIntr {A : Type} {m : Eff σ E A} :
      NoRestore m → NoRestore (.setInterruptible false m)

/-- Outcome of running a transaction body: success, a typed recoverable
failure, or an unrecoverable defect.  Mirrors the Outcome model of the
specification (section 3). -/
inductive Outcome (E : Type) where
  | success
  | failure (e : E)
  | defect (d : Nat)
deriving DecidableEq

/-- State of the store as seen through one connection: the committed rows and,
when a transaction is open on this connection, the buffer of writes issued
inside it and not yet committed.  `working = none` means no transaction
handle is installed in the ambient context. -/
structure DB where
  committed : List Nat
  working : Option (List Nat)
deriving DecidableEq

/-- Execution state threaded through a transaction body: the store plus a
mutable value owned by the caller's execution context (used to observe that
the body runs in the same logical execution context as the caller). -/
structure St where
  db : DB
  var : Nat
deriving DecidableEq

/-- Transaction bodies: sequences of writes, mutations of the caller's mutable
value, typed failures, defects, nested reused transaction calls (`tx`), and a
nested transaction call whose typed failure is caught by the outer body before
escaping (`tryTx`), after which the outer body continues. -/
inductive Body where
  | done
  | write (r : Nat) (k : Body)
  | setVar (v : Nat) (k : Body)
  | failB (e : Nat)
  | dieB (d : Nat)
  | tx (inner : Body) (k : Body)
  | tryTx (inner : Body) (k : Body)

/-- Modelled from the spec: the acquire phase of the transaction manager when
no ambient handle is installed — begin a new transaction, installing an empty
write buffer as the ambient transaction handle (spec section 4.2,
"If absent: begin a new transaction against the store").  The transaction
manager implementation itself is generated code not present under src/. -/
def beginTx (s : St) : St :=
  { s with db := { s.db with working := some [] } }

/-- Modelled from the spec: the release phase of the outermost transaction
invocation — commit (append the buffered writes to the committed rows) iff
the body's outcome is success, roll back (discard the buffer) iff it is a
failure or a defect; either way the handle is destroyed (spec section 4.2,
"Commit iff body's Outcome is Success", "Rollback iff body's Outcome is
Failure or Defect").  The caller's mutable value is left untouched. -/
def finishTx : Outcome Nat × St × List Nat → Outcome Nat × St × List Nat
  | (o, s2, tr) =>
    match o with
    | .success =>
      (o, { s2 with db := ⟨s2.db.committed ++ s2.db.working.getD [], none⟩ }, tr)
    | _ => (o, { s2 with db := ⟨s2.db.committed, none⟩ }, tr)

/-- Modelled from the spec: running a transaction body in the caller's own
execution context (spec section 4.2, "run body in the same logical execution
context as the caller — no separate worker/fiber/thread is spawned"); the
generated runtime is not present under src/.  Writes go to the ambient
transaction buffer when a handle is installed, directly to the committed rows
otherwise; a nested transaction call first inspects the ambient context: if a
handle is present it is reused (no new transaction begins, no savepoint is
created, its release is a no-op), otherwise a fresh transaction is begun and
finished around the inner body.  A `tryTx` node models the outer body
catching the inner call's typed failure and continuing; defects are never
caught.  The result is the body's outcome, the final state, and the trace of
writes the body issued. -/
def runBody : Body → St → Outcome Nat × St × List Nat
  | .done, s => (.success, s, [])
  | .write r k, s =>
    let s1 := match s.db.working with
      | some w => { s with db := { s.db with working := some (w ++ [r]) } }
      | none => { s with db := { s.db with committed := s.db.committed ++ [r] } }
    let r2 := runBody k s1
    (r2.1, r2.2.1, r :: r2.2.2)
  | .setVar v k, s => runBody k { s with var := v }
  | .failB e, s => (.failure e, s, [])
  | .dieB d, s => (.defect d, s, [])
  | .tx inner k, s =>
    let r1 := match s.db.working with
      | some _ => runBody inner s
      | none => finishTx (runBody inner (beginTx s))
    match r1 with
    | (.success, s1, tr1) =>
      let r2 := runBody k s1
      (r2.1, r2.2.1, tr1 ++ r2.2.2)
    | (.failure e, s1, tr1) => (.failure e, s1, tr1)
    | (.defect d, s1, tr1) => (.defect d, s1, tr1)
  | .tryTx inner k, s =>
    let r1 := match s.db.working with
      | some _ => runBody inner s
      | none => finishTx (runBody inner (beginTx s))
    match r1 with
    | (.success, s1, tr1) =>
      let r2 := runBody k s1
      (r2.1, r2.2.1, tr1 ++ r2.2.2)
    | (.failure _, s1, tr1) =>
      let r2 := runBody k s1
      (r2.1, r2.2.1, tr1 ++ r2.2.2)
    | (.defect d, s1, tr1) => (.defect d, s1, tr1)

/-- Modelled from the spec: the transaction manager operation
`withTransaction` / `$transaction` (spec section 4.2): inspect the ambient
context for an installed handle; if present, reuse it (no new transaction, no
savepoint); if absent, begin a new transaction, run the body with the handle
installed, and commit or roll back according to the body's outcome. -/
def runTx (b : Body) (s : St) : Outcome Nat × St × List Nat :=
  match s.db.working with
  | some _ => runBody b s
  | none => finishTx (runBody b (beginTx s))

/-- Closed enumeration of error kinds of the classifier (spec section 3). -/
inductive ErrorKind where
  | uniqueConstraint
  | foreignKeyConstraint
  | recordNotFound
  | relationViolation
  | relatedRecordNotFound
  | transactionConflict
  | valueTooLong
  | valueOutOfRange
  | constraintOther
  | connection
  | missingRequiredValue
  | inputValidation
  | uncategorized
deriving DecidableEq

/-- A raw store error: carries the store-level error code. -/
structure RawError where
  code : String
deriving DecidableEq

/-- Modelled from the spec: the static code-to-kind lookup table of the error
classifier (spec sections 3 and 4.3); the classifier implementation is
generated code not present under src/.  The codes pinned by the error table
in the repository README (src/unnamed/part_003 and part_004) are P2002 (unique
constraint), P2003 (foreign key constraint) and P2025 (record not found);
every unmapped code falls into `uncategorized`. -/
def codeToKind (c : String) : ErrorKind :=
  if c = "P2002" then .uniqueConstraint
  else if c = "P2003" then .foreignKeyConstraint
  else if c = "P2025" then .recordNotFound
  else .uncategorized

/-- A classified typed failure: kind, raw cause, and provenance metadata. -/
structure TypedFailure where
  kind : ErrorKind
  cause : RawError
  operation : String
  model : String
deriving DecidableEq

/-- Modelled from the spec: the pure classifier
`classify(rawError, operationName, modelName)` (spec section 4.3) — look the
raw error's code up in the static table and attach the raw error as cause
together with the invoking operation name and model name. -/
def classify (rawError : RawError) (operationName modelName : String) : TypedFailure :=
  { kind := codeToKind rawError.code
    cause := rawError
    operation := operationName
    model := modelName }

/-- Modelled from the spec: the generated `create` operation on the User
model, restricted to the unique-email aspect (spec section 8, concrete
scenario): attempting to create a user whose email already exists fails with
the raw store error P2002 routed through the classifier under
operation "create" and model "User". -/
def createUser (store : List String) (email : String) : Except TypedFailure (List String) :=
  if email ∈ store then .error (classify ⟨("P2002")⟩ ("create") ("User"))
  else .ok (store ++ [email])

theorem interruptNow_false (sig : Option Nat) (st : Nat) :
    interruptNow sig false st = false := rfl

theorem interruptNow_none (intr : Bool) (st : Nat) :
    interruptNow none intr st = false := by
  cases intr <;> rfl

theorem runEff_succeed {σ E A : Type} (a : A) (s : σ) (st : Nat) (intr : Bool)
    (sig : Option Nat) (h : interruptNow sig intr st = false) :
    runEff (Eff.succeed (E := E) a) s st intr sig = (.success a, s, st + 1) := by
  simp [runEff, h]

theorem runEff_failE {σ E A : Type} (e : E) (s : σ) (st : Nat) (intr : Bool)
    (sig : Option Nat) (h : interruptNow sig intr st = false) :
    runEff (Eff.failE (σ := σ) (A := A) e) s st intr sig = (.failCause (.fail e), s, st + 1) := by
  simp [runEff, h]

theorem runEff_die {σ E A : Type} (msg : String) (s : σ) (st : Nat) (intr : Bool)
    (sig : Option Nat) (h : interruptNow sig intr st = false) :
    runEff (Eff.die (σ := σ) (E := E) (A := A) msg) s st intr sig
      = (.failCause (.die msg), s, st + 1) := by
  simp [runEff, h]

theorem runEff_done {σ E A : Type} (ex : Exit E A) (s : σ) (st : Nat) (intr : Bool)
    (sig : Option Nat) (h : interruptNow sig intr st = false) :
    runEff (Eff.done (σ := σ) ex) s st intr sig = (ex, s, st + 1) := by
  simp [runEff, h]

theorem runEff_flatMap_success {σ E A B : Type} {m : Eff σ E A} {k : A → Eff σ E B}
    {s : σ} {st : Nat} {intr : Bool} {sig : Option Nat} {a : A} {s1 : σ} {st1 : Nat}
    (h : interruptNow sig intr st = false)
    (hm : runEff m s st intr sig = (.success a, s1, st1)) :
    runEff (Eff.flatMap m k) s st intr sig = runEff (k a) s1 st1 intr sig := by
  simp [runEff, h, hm]

theorem runEff_flatMap_failCause {σ E A B : Type} {m : Eff σ E A} {k : A → Eff σ E B}
    {s : σ} {st : Nat} {intr : Bool} {sig : Option Nat} {c : Cause E} {s1 : σ} {st1 : Nat}
    (h : interruptNow sig intr st = false)
    (hm : runEff m s st intr sig = (.failCause c, s1, st1)) :
    runEff (Eff.flatMap m k) s st intr sig = (.failCause c, s1, st1) := by
  simp [runEff, h, hm]

theorem runEff_catchExit {σ E A B : Type} {m : Eff σ E A} {k : Exit E A → Eff σ E B}
    {s : σ} {st : Nat} {intr : Bool} {sig : Option Nat} {ex : Exit E A} {s1 : σ} {st1 : Nat}
    (h : interruptNow sig intr st = false)
    (hm : runEff m s st intr sig = (ex, s1, st1)) :
    runEff (Eff.catchExit m k) s st intr sig = runEff (k ex) s1 st1 intr sig := by
  simp [runEff, h, hm]

theorem runEff_mask {σ E A : Type} (f : Bool → Eff σ E A) (s : σ) (st : Nat) (intr : Bool)
    (sig : Option Nat) (h : interruptNow sig intr st = false) :
    runEff (Eff.mask f) s st intr sig = runEff (f intr) s st false sig := by
  simp [runEff, h]

theorem runEff_setInterruptible {σ E A : Type} (b : Bool) (m : Eff σ E A) (s : σ) (st : Nat)
    (intr : Bool) (sig : Option Nat) (h : interruptNow sig intr st = false) :
    runEff (Eff.setInterruptible b m) s st intr sig = runEff m s st b sig := by
  simp [runEff, h]

/-- Uninterruptibility: a computation that never re-installs interruptibility,
run in an uninterruptible region, behaves exactly as if no cancellation signal
existed at all — interruption requests are deferred past it. -/
theorem runEff_noRestore_sig_irrelevant {σ E : Type} : ∀ {A : Type} {m : Eff σ E A},
    NoRestore m → ∀ (s : σ) (st : Nat) (sig : Option Nat),
    runEff m s st false sig = runEff m s st false none := by
  intro A m h
  induction h with
  | succeed a => intro s st sig; rfl
  | failE e => intro s st sig; rfl
  | die msg => intro s st sig; rfl
  | done ex => intro s st sig; rfl
  | sync f => intro s st sig; rfl
  | flatMap hm hk ihm ihk =>
    intro s st sig
    simp only [runEff, interruptNow_false, Bool.false_eq_true, if_false, ihm s st sig]
    rcases hr : runEff _ s st false none with ⟨ex, s1, st1⟩
    cases ex with
    | success a => simpa using ihk a s1 st1 sig
    | failCause c => simp
  | catchExit hm hk ihm ihk =>
    intro s st sig
    simp only [runEff, interruptNow_false, Bool.false_eq_true, if_false, ihm s st sig]
    rcases hr : runEff _ s st false none with ⟨ex, s1, st1⟩
    simpa using ihk ex s1 st1 sig
  | mask hf ihf =>
    intro s st sig
    simp only [runEff, interruptNow_false, Bool.false_eq_true, if_false]
    exact ihf false s st sig
  | setIntr hm ihm =>
    intro s st sig
    simp only [runEff, interruptNow_false, Bool.false_eq_true, if_false]
    exact ihm s st sig

/-- Master run lemma for `acquireUseReleaseWithErrors` on the successful
acquire path, for an arbitrary cancellation signal that is not yet pending at
entry: the three phases run in order (acquire and release in the
uninterruptible region, use in the restored interruptible region), release
receives the use exit, and the observed exit is the release failure when
release fails and the use exit otherwise. -/
theorem aurwe_run_success {σ E A B X : Type}
    {acquire : Eff σ E A} {use : A → Eff σ E B} {release : A → Exit E B → Eff σ E X}
    {sig : Option Nat} {s : σ} {a : A} {s1 : σ} {st1 : Nat}
    {exU : Exit E B} {s2 : σ} {st2 : Nat} {exR : Exit E X} {s3 : σ} {st3 : Nat}
    (h0 : interruptNow sig true 0 = false)
    (ha : runEff acquire s 0 false sig = (.success a, s1, st1))
    (hu : runEff (use a) s1 st1 true sig = (exU, s2, st2))
    (hr : runEff (release a exU) s2 st2 false sig = (exR, s3, st3)) :
    runEff (acquireUseReleaseWithErrors acquire use release) s 0 true sig
      = ((match exR with
          | .failCause c => Exit.failCause c
          | .success _ => exU), s3, st3 + 1) := by
  have hU : runEff (Eff.setInterruptible true (use a)) s1 st1 false sig = (exU, s2, st2) := by
    rw [runEff_setInterruptible _ _ _ _ _ _ (interruptNow_false sig st1)]; exact hu
  have hR : runEff (Eff.setInterruptible false (release a exU)) s2 st2 false sig
      = (exR, s3, st3) := by
    rw [runEff_setInterruptible _ _ _ _ _ _ (interruptNow_false sig st2)]; exact hr
  unfold acquireUseReleaseWithErrors
  rw [runEff_mask _ _ _ _ _ h0,
    runEff_flatMap_success (interruptNow_false sig 0) ha,
    runEff_catchExit (interruptNow_false sig st1) hU,
    runEff_catchExit (interruptNow_false sig st2) hR]
  cases exR with
  | success x => exact runEff_done _ _ _ _ _ (interruptNow_false sig st3)
  | failCause c => exact runEff_done _ _ _ _ _ (interruptNow_false sig st3)

/-- Master run lemma for `acquireUseReleaseWithErrors` on the failed acquire
path: the result is acquire's own failure, and the final state and step
counter are exactly acquire's, for every use and release function — nothing
else runs. -/
theorem aurwe_run_acquire_failed {σ E A B X : Type}
    {acquire : Eff σ E A} (use : A → Eff σ E B) (release : A → Exit E B → Eff σ E X)
    {sig : Option Nat} {s : σ} {c : Cause E} {s1 : σ} {st1 : Nat}
    (h0 : interruptNow sig true 0 = false)
    (ha : runEff acquire s 0 false sig = (.failCause c, s1, st1)) :
    runEff (acquireUseReleaseWithErrors acquire use release) s 0 true sig
      = (.failCause c, s1, st1) := by
  unfold acquireUseReleaseWithErrors
  rw [runEff_mask _ _ _ _ _ h0, runEff_flatMap_failCause (interruptNow_false sig 0) ha]

theorem runEff_sync {σ E A : Type} (f : σ → σ × A) (s : σ) (st : Nat) (intr : Bool)
    (sig : Option Nat) (h : interruptNow sig intr st = false) :
    runEff (Eff.sync (E := E) f) s st intr sig = (.success (f s).2, (f s).1, st + 1) := by
  simp [runEff, h]

/-- The release phase of the transaction manager never touches the caller's
mutable value: commit and rollback only change the store. -/
theorem finishTx_var (r : Outcome Nat × St × List Nat) :
    (finishTx r).2.1.var = r.2.1.var := by
  rcases r with ⟨o, s2, tr⟩
  cases o <;> rfl

/-- Invariant of running a body while a transaction handle is installed: the
handle's write buffer grows by exactly the trace of writes the body issued,
and the committed rows are untouched (nested reused calls included: no inner
commit, no rollback, no savepoint). -/
theorem runBody_working_invariant : ∀ (b : Body) (s : St) (w : List Nat),
    s.db.working = some w →
    (runBody b s).2.1.db.working = some (w ++ (runBody b s).2.2)
    ∧ (runBody b s).2.1.db.committed = s.db.committed := by
  intro b
  induction b with
  | done => intro s w h; simp [runBody, h]
  | write r k ih =>
    intro s w h
    have h1 : ({ s with db := { s.db with working := some (w ++ [r]) } } : St).db.working
        = some (w ++ [r]) := rfl
    have ih2 := ih { s with db := { s.db with working := some (w ++ [r]) } } (w ++ [r]) h1
    simp only [runBody, h]
    rcases hk : runBody k { s with db := { s.db with working := some (w ++ [r]) } }
      with ⟨o2, s2, tr2⟩
    rw [hk] at ih2
    simpa [List.append_assoc] using ih2
  | setVar v k ih =>
    intro s w h
    exact ih { s with var := v } w h
  | failB e => intro s w h; simp [runBody, h]
  | dieB d => intro s w h; simp [runBody, h]
  | tx inner k ihInner ihK =>
    intro s w h
    have ih1 := ihInner s w h
    simp only [runBody, h]
    rcases h1 : runBody inner s with ⟨o1, s1, tr1⟩
    rw [h1] at ih1
    cases o1 with
    | success =>
      have hs1 : s1.db.working = some (w ++ tr1) := ih1.1
      have ih2 := ihK s1 (w ++ tr1) hs1
      rcases h2 : runBody k s1 with ⟨o2, s2, tr2⟩
      rw [h2] at ih2
      show (runBody k s1).2.1.db.working = some (w ++ (tr1 ++ (runBody k s1).2.2))
        ∧ (runBody k s1).2.1.db.committed = s.db.committed
      rw [h2]
      refine ⟨?_, ?_⟩
      · show s2.db.working = some (w ++ (tr1 ++ tr2))
        rw [← List.append_assoc]
        exact ih2.1
      · show s2.db.committed = s.db.committed
        exact ih2.2.trans ih1.2
    | failure e => exact ih1
    | defect d => exact ih1
  | tryTx inner k ihInner ihK =>
    intro s w h
    have ih1 := ihInner s w h
    simp only [runBody, h]
    rcases h1 : runBody inner s with ⟨o1, s1, tr1⟩
    rw [h1] at ih1
    cases o1 with
    | success =>
      have hs1 : s1.db.working = some (w ++ tr1) := ih1.1
      have ih2 := ihK s1 (w ++ tr1) hs1
      rcases h2 : runBody k s1 with ⟨o2, s2, tr2⟩
      rw [h2] at ih2
      show (runBody k s1).2.1.db.working = some (w ++ (tr1 ++ (runBody k s1).2.2))
        ∧ (runBody k s1).2.1.db.committed = s.db.committed
      rw [h2]
      refine ⟨?_, ?_⟩
      · show s2.db.working = some (w ++ (tr1 ++ tr2))
        rw [← List.append_assoc]
        exact ih2.1
      · show s2.db.committed = s.db.committed
        exact ih2.2.trans ih1.2
    | failure e =>
      have hs1 : s1.db.working = some (w ++ tr1) := ih1.1
      have ih2 := ihK s1 (w ++ tr1) hs1
      rcases h2 : runBody k s1 with ⟨o2, s2, tr2⟩
      rw [h2] at ih2
      show (runBody k s1).2.1.db.working = some (w ++ (tr1 ++ (runBody k s1).2.2))
        ∧ (runBody k s1).2.1.db.committed = s.db.committed
      rw [h2]
      refine ⟨?_, ?_⟩
      · show s2.db.working = some (w ++ (tr1 ++ tr2))
        rw [← List.append_assoc]
        exact ih2.1
      · show s2.db.committed = s.db.committed
        exact ih2.2.trans ih1.2
    | defect d => exact ih1

/-- C1: for the acquire-use-release combinator, for every acquire that
succeeds: if use fails with a typed failure and release fails with a typed
failure, the caller observes the release failure; if use fails and release
succeeds, the caller observes the use failure; if use succeeds and release
fails, the caller observes the release failure. -/
theorem aurwe_precedence {σ E A B X : Type}
    (acquire : Eff σ E A) (s : σ) (a : A) (s1 : σ) (st1 : Nat)
    (ha : runEff acquire s 0 false none = (.success a, s1, st1)) :
    (∀ (use : A → Eff σ E B) (release : A → Exit E B → Eff σ E X)
       (eu er : E) (s2 : σ) (st2 : Nat) (s3 : σ) (st3 : Nat),
       runEff (use a) s1 st1 true none = (.failCause (.fail eu), s2, st2) →
       runEff (release a (.failCause (.fail eu))) s2 st2 false none
         = (.failCause (.fail er), s3, st3) →
       (runEff (acquireUseReleaseWithErrors acquire use release) s 0 true none).1
         = .failCause (.fail er))
    ∧ (∀ (use : A → Eff σ E B) (release : A → Exit E B → Eff σ E X)
       (eu : E) (x : X) (s2 : σ) (st2 : Nat) (s3 : σ) (st3 : Nat),
       runEff (use a) s1 st1 true none = (.failCause (.fail eu), s2, st2) →
       runEff (release a (.failCause (.fail eu))) s2 st2 false none
         = (.success x, s3, st3) →
       (runEff (acquireUseReleaseWithErrors acquire use release) s 0 true none).1
         = .failCause (.fail eu))
    ∧ (∀ (use : A → Eff σ E B) (release : A → Exit E B → Eff σ E X)
       (v : B) (er : E) (s2 : σ) (st2 : Nat) (s3 : σ) (st3 : Nat),
       runEff (use a) s1 st1 true none = (.success v, s2, st2) →
       runEff (release a (.success v)) s2 st2 false none
         = (.failCause (.fail er), s3, st3) →
       (runEff (acquireUseReleaseWithErrors acquire use release) s 0 true none).1
         = .failCause (.fail er)) := by
  refine ⟨?_, ?_, ?_⟩
  · intro use release eu er s2 st2 s3 st3 hu hr
    rw [aurwe_run_success (interruptNow_none true 0) ha hu hr]
  · intro use release eu x s2 st2 s3 st3 hu hr
    rw [aurwe_run_success (interruptNow_none true 0) ha hu hr]
  · intro use release v er s2 st2 s3 st3 hu hr
    rw [aurwe_run_success (interruptNow_none true 0) ha hu hr]

/-- Witness for C1: concrete instances of all three precedence cases, with
acquire succeeding, use and release failing with distinguishable typed
errors. -/
theorem aurwe_precedence_witness :
    (runEff (acquireUseReleaseWithErrors (Eff.succeed 0)
       (fun _ : Nat => Eff.failE (A := Nat) ("eu"))
       (fun _ _ => Eff.failE (A := Nat) ("er")) : Eff Unit String Nat) () 0 true none).1
      = Exit.failCause (.fail ("er"))
    ∧ (runEff (acquireUseReleaseWithErrors (Eff.succeed 0)
       (fun _ : Nat => Eff.failE (A := Nat) ("eu"))
       (fun _ _ => Eff.succeed 5) : Eff Unit String Nat) () 0 true none).1
      = Exit.failCause (.fail ("eu"))
    ∧ (runEff (acquireUseReleaseWithErrors (Eff.succeed 0)
       (fun _ : Nat => Eff.succeed 3)
       (fun _ _ => Eff.failE (A := Nat) ("er")) : Eff Unit String Nat) () 0 true none).1
      = Exit.failCause (.fail ("er")) := by
  refine ⟨?_, ?_, ?_⟩
  · exact (aurwe_precedence (B := Nat) (X := Nat) (Eff.succeed 0) () 0 () 1 (by rfl)).1
      (fun _ => Eff.failE ("eu")) (fun _ _ => Eff.failE ("er"))
      ("eu") ("er") () 2 () 3 (by rfl) (by rfl)
  · exact (aurwe_precedence (B := Nat) (X := Nat) (Eff.succeed 0) () 0 () 1 (by rfl)).2.1
      (fun _ => Eff.failE ("eu")) (fun _ _ => Eff.succeed 5)
      ("eu") 5 () 2 () 3 (by rfl) (by rfl)
  · exact (aurwe_precedence (B := Nat) (X := Nat) (Eff.succeed 0) () 0 () 1 (by rfl)).2.2
      (fun _ => Eff.succeed 3) (fun _ _ => Eff.failE ("er"))
      3 ("er") () 2 () 3 (by rfl) (by rfl)

/-- C2: once acquire has succeeded, the release function runs exactly once —
the state counter instrumenting it is incremented exactly once — whatever the
exit of the use phase is (success, typed failure, or defect), given that
acquire, use and release themselves leave the instrumentation counter
alone. -/
theorem aurwe_release_exactly_once {E A B X : Type}
    (acquire : Eff Nat E A) (use : A → Eff Nat E B) (release : A → Exit E B → Eff Nat E X)
    (n : Nat) (a : A) (st1 : Nat) (exU : Exit E B) (st2 : Nat) (exR : Exit E X) (st3 : Nat)
    (ha : runEff acquire n 0 false none = (.success a, n, st1))
    (hu : runEff (use a) n st1 true none = (exU, n, st2))
    (hr : runEff (release a exU) (n + 1) (st2 + 1) false none = (exR, n + 1, st3)) :
    (runEff (acquireUseReleaseWithErrors acquire use
        (fun a2 ex => Eff.flatMap (Eff.sync fun c => (c + 1, ())) (fun _ => release a2 ex)))
        n 0 true none).2.1 = n + 1 := by
  have hrel : runEff (Eff.flatMap (Eff.sync fun c : Nat => (c + 1, ()))
      (fun _ => release a exU)) n st2 false none = (exR, n + 1, st3) := by
    rw [runEff_flatMap_success (interruptNow_false none st2)
      (runEff_sync _ _ _ _ _ (interruptNow_false none st2))]
    exact hr
  rw [aurwe_run_success (interruptNow_none true 0) ha hu hrel]

/-- Witness for C2: a concrete run in which use fails with a typed failure and
the instrumented release counter ends at exactly one. -/
theorem aurwe_release_exactly_once_witness :
    (runEff (acquireUseReleaseWithErrors (Eff.succeed 0)
        (fun _ : Nat => Eff.failE (A := Nat) ("use failed"))
        (fun a2 ex => Eff.flatMap (Eff.sync fun c => (c + 1, ()))
          (fun _ => (fun (_ : Nat) (_ : Exit String Nat) => Eff.succeed 2) a2 ex))
        : Eff Nat String Nat) 0 0 true none).2.1 = 0 + 1 :=
  aurwe_release_exactly_once (Eff.succeed 0) (fun _ => Eff.failE ("use failed"))
    (fun _ _ => Eff.succeed 2) 0 0 1 (.failCause (.fail ("use failed"))) 2
    (.success 2) 4 (by rfl) (by rfl) (by rfl)

/-- C5 counterexample: when use raises a defect and release fails with a typed
failure, the caller does not observe the original defect — the combinator
returns the release failure (the `isFailure releaseExit` branch fires on every
failed release, defective use exit or not), so the claim that the original
defect is always what the caller observes after a defective use is false. -/
theorem aurwe_defect_release_failure_counterexample :
    (runEff (acquireUseReleaseWithErrors (Eff.succeed 0)
        (fun _ : Nat => Eff.die (A := Nat) ("boom"))
        (fun _ _ => Eff.failE (A := Nat) ("release failed")) : Eff Unit String Nat)
        () 0 true none).1 = Exit.failCause (.fail ("release failed"))
    ∧ (runEff (acquireUseReleaseWithErrors (Eff.succeed 0)
        (fun _ : Nat => Eff.die (A := Nat) ("boom"))
        (fun _ _ => Eff.failE (A := Nat) ("release failed")) : Eff Unit String Nat)
        () 0 true none).1 ≠ Exit.failCause (Cause.die ("boom")) := by
  constructor
  · rfl
  · decide

/-- C5 (amended): when use raises a defect, release still executes — the final
state is release's final state — and, provided release succeeds, the original
defect is what the caller observes, re-propagated in the defect channel, never
converted into a typed failure.  (When release fails, the release failure is
surfaced instead, per the precedence rule.) -/
theorem aurwe_defect_repropagates_when_release_succeeds {σ E A B X : Type}
    (acquire : Eff σ E A) (use : A → Eff σ E B) (release : A → Exit E B → Eff σ E X)
    (s : σ) (a : A) (s1 : σ) (st1 : Nat) (d : String) (s2 : σ) (st2 : Nat)
    (x : X) (s3 : σ) (st3 : Nat)
    (ha : runEff acquire s 0 false none = (.success a, s1, st1))
    (hu : runEff (use a) s1 st1 true none = (.failCause (.die d), s2, st2))
    (hr : runEff (release a (.failCause (.die d))) s2 st2 false none
      = (.success x, s3, st3)) :
    runEff (acquireUseReleaseWithErrors acquire use release) s 0 true none
      = (.failCause (.die d), s3, st3 + 1) := by
  rw [aurwe_run_success (interruptNow_none true 0) ha hu hr]

/-- Witness for the amended C5: use dies with a defect, release mutates the
state (so its execution is observable) and succeeds; the caller observes the
original defect and release's state change. -/
theorem aurwe_defect_repropagates_witness :
    runEff (acquireUseReleaseWithErrors (Eff.succeed 0)
        (fun _ : Nat => Eff.die (A := Nat) ("boom"))
        (fun _ _ => Eff.sync fun n => (n + 100, n)) : Eff Nat String Nat) 0 0 true none
      = (.failCause (.die ("boom")), 100, 4) :=
  aurwe_defect_repropagates_when_release_succeeds (Eff.succeed 0)
    (fun _ => Eff.die ("boom")) (fun _ _ => Eff.sync fun n => (n + 100, n))
    0 0 0 1 ("boom") 0 2 0 100 3 (by rfl) (by rfl) (by rfl)

/-- C6: if acquire fails, use and release never run — the result, final state
and step counter of the whole combinator are exactly those of acquire's own
failing run, for every possible use and release function — and the failure
the caller observes is exactly the acquire failure, unchanged. -/
theorem aurwe_acquire_failure_propagates {σ E A B X : Type}
    (acquire : Eff σ E A) (use : A → Eff σ E B) (release : A → Exit E B → Eff σ E X)
    (s : σ) (e : E) (s1 : σ) (st1 : Nat)
    (ha : runEff acquire s 0 false none = (.failCause (.fail e), s1, st1)) :
    runEff (acquireUseReleaseWithErrors acquire use release) s 0 true none
      = (.failCause (.fail e), s1, st1) :=
  aurwe_run_acquire_failed use release (interruptNow_none true 0) ha

/-- Witness for C6: a failing acquire with state-instrumented use and release;
the final state equals acquire's, so neither instrumentation ran, and the
acquire error is returned unchanged. -/
theorem aurwe_acquire_failure_propagates_witness :
    runEff (acquireUseReleaseWithErrors (Eff.failE ("acquire failed"))
        (fun _ : Nat => Eff.sync fun n => (n + 10, 1))
        (fun _ _ => Eff.sync fun n => (n + 100, 2)) : Eff Nat String Nat) 0 0 true none
      = (.failCause (.fail ("acquire failed")), 0, 1) :=
  aurwe_acquire_failure_propagates (Eff.failE ("acquire failed"))
    (fun _ => Eff.sync fun n => (n + 10, 1)) (fun _ _ => Eff.sync fun n => (n + 100, 2))
    0 ("acquire failed") 0 1 (by rfl)

/-- C7: release cannot be interrupted mid-flight by the surrounding
computation's cancellation.  If the surrounding interruptible computation is
cancelled while use is mid-flight (use's run ends in an interrupt exit under
signal `some j`), a release that never re-installs interruptibility runs to
completion exactly as it would with no cancellation signal at all — the final
state is release's — and only then is the cancellation honored: the observed
exit is the interruption. -/
theorem aurwe_release_uninterruptible {σ E A B X : Type}
    (acquire : Eff σ E A) (use : A → Eff σ E B) (release : A → Exit E B → Eff σ E X)
    (j : Nat) (hj : 0 < j) (s : σ) (a : A) (s1 : σ) (st1 : Nat)
    (s2 : σ) (st2 : Nat) (x : X) (s3 : σ) (st3 : Nat)
    (ha : runEff acquire s 0 false (some j) = (.success a, s1, st1))
    (hu : runEff (use a) s1 st1 true (some j) = (.failCause .interrupt, s2, st2))
    (hnr : NoRestore (release a (.failCause .interrupt)))
    (hr : runEff (release a (.failCause .interrupt)) s2 st2 false none
      = (.success x, s3, st3)) :
    runEff (acquireUseReleaseWithErrors acquire use release) s 0 true (some j)
      = (.failCause .interrupt, s3, st3 + 1) := by
  have h0 : interruptNow (some j) true 0 = false := by
    simp [interruptNow]
    omega
  have hr2 : runEff (release a (.failCause .interrupt)) s2 st2 false (some j)
      = (.success x, s3, st3) := by
    rw [runEff_noRestore_sig_irrelevant hnr]
    exact hr
  rw [aurwe_run_success h0 ha hu hr2]

/-- Witness for C7: the cancellation signal arrives after two steps, so use is
interrupted mid-flight right after mutating the state to 10; release still
runs to completion (adding 100 to the state) and only then is the
interruption surfaced. -/
theorem aurwe_release_uninterruptible_witness :
    runEff (acquireUseReleaseWithErrors (Eff.succeed 7)
        (fun _ : Nat => Eff.flatMap (Eff.sync fun n : Nat => (n + 10, ()))
          (fun _ => Eff.succeed 1))
        (fun _ _ => Eff.sync fun n => (n + 100, n)) : Eff Nat String Nat)
        0 0 true (some 2)
      = (.failCause .interrupt, 110, 4) :=
  aurwe_release_uninterruptible (Eff.succeed 7)
    (fun _ => Eff.flatMap (Eff.sync fun n => (n + 10, ())) (fun _ => Eff.succeed 1))
    (fun _ _ => Eff.sync fun n => (n + 100, n)) 2 (by decide) 0 7 0 1 10 2 10 110 3
    (by rfl) (by rfl) (NoRestore.sync _) (by rfl)

/-- C10: in the combinator, the interruptibility restore is applied only
around the use phase, so the acquire phase runs uninterruptibly: an acquire
that never re-installs interruptibility behaves, under any cancellation
signal `some j` (not already pending at entry), exactly as specified by its
signal-free run — cancellation can never take effect during acquire — while
the use phase runs under the restored interruptible flag and does see the
signal. -/
theorem aurwe_acquire_uninterruptible {σ E A B X : Type}
    (acquire : Eff σ E A) (use : A → Eff σ E B) (release : A → Exit E B → Eff σ E X)
    (j : Nat) (hj : 0 < j) (s : σ) (a : A) (s1 : σ) (st1 : Nat) (exU : Exit E B)
    (s2 : σ) (st2 : Nat) (x : X) (s3 : σ) (st3 : Nat)
    (hnr : NoRestore acquire)
    (ha : runEff acquire s 0 false none = (.success a, s1, st1))
    (hu : runEff (use a) s1 st1 true (some j) = (exU, s2, st2))
    (hr : runEff (release a exU) s2 st2 false (some j) = (.success x, s3, st3)) :
    runEff (acquireUseReleaseWithErrors acquire use release) s 0 true (some j)
      = (exU, s3, st3 + 1) := by
  have h0 : interruptNow (some j) true 0 = false := by
    simp [interruptNow]
    omega
  have ha2 : runEff acquire s 0 false (some j) = (.success a, s1, st1) := by
    rw [runEff_noRestore_sig_irrelevant hnr]
    exact ha
  rw [aurwe_run_success h0 ha2 hu hr]

/-- Witness for C10: the cancellation signal arrives after one step, during
the two-step acquire; acquire still completes (its state mutation to 1 is
observed), and the interruption takes effect only at the use phase. -/
theorem aurwe_acquire_uninterruptible_witness :
    runEff (acquireUseReleaseWithErrors
        (Eff.flatMap (Eff.sync fun n : Nat => (n + 1, ())) (fun _ => Eff.succeed 5))
        (fun _ : Nat => Eff.succeed 9)
        (fun _ _ => Eff.succeed 0) : Eff Nat String Nat) 0 0 true (some 1)
      = (.failCause .interrupt, 1, 4) :=
  aurwe_acquire_uninterruptible
    (Eff.flatMap (Eff.sync fun n => (n + 1, ())) (fun _ => Eff.succeed 5))
    (fun _ => Eff.succeed 9) (fun _ _ => Eff.succeed 0) 1 (by decide) 0 5 1 2
    (.failCause .interrupt) 1 2 0 1 3
    (NoRestore.flatMap (NoRestore.sync _) (fun _ => NoRestore.succeed _))
    (by rfl) (by rfl) (by rfl)

/-- C3: commit/rollback atomicity of the transaction manager.  For every
transaction body run through the transaction operation from a state with no
ambient handle: if the body's outcome is success, the transaction commits and
afterwards the committed rows are exactly the previous rows followed by every
write the body issued (nested reused calls included); if the body's outcome
is a typed failure or a defect, the transaction rolls back and the committed
rows are unchanged — no write issued inside the body is visible.  Either way
the handle is gone afterwards. -/
theorem tx_commit_rollback_atomicity (b : Body) (s : St) (h : s.db.working = none) :
    ((runTx b s).1 = Outcome.success →
      (runTx b s).2.1.db.committed = s.db.committed ++ (runTx b s).2.2
      ∧ (runTx b s).2.1.db.working = none)
    ∧ (∀ e : Nat, (runTx b s).1 = Outcome.failure e →
      (runTx b s).2.1.db.committed = s.db.committed
      ∧ (runTx b s).2.1.db.working = none)
    ∧ (∀ d : Nat, (runTx b s).1 = Outcome.defect d →
      (runTx b s).2.1.db.committed = s.db.committed
      ∧ (runTx b s).2.1.db.working = none) := by
  have hw : (beginTx s).db.working = some [] := rfl
  have hinv := runBody_working_invariant b (beginTx s) [] hw
  have hc : (beginTx s).db.committed = s.db.committed := rfl
  rw [hc] at hinv
  rcases hO : runBody b (beginTx s) with ⟨o, s2, tr⟩
  rw [hO] at hinv
  simp only [List.nil_append] at hinv
  have hrtx : runTx b s = finishTx (o, s2, tr) := by
    rw [runTx, h, hO]
  cases o with
  | success =>
    rw [hrtx]
    refine ⟨fun _ => ⟨?_, rfl⟩, fun e he => ?_, fun d hd => ?_⟩
    · show s2.db.committed ++ s2.db.working.getD [] = s.db.committed ++ tr
      rw [hinv.2, hinv.1]
      rfl
    · exact absurd he (by simp [finishTx])
    · exact absurd hd (by simp [finishTx])
  | failure e =>
    rw [hrtx]
    refine ⟨fun hs => absurd hs (by simp [finishTx]), fun e2 he => ⟨?_, rfl⟩,
      fun d hd => absurd hd (by simp [finishTx])⟩
    show s2.db.committed = s.db.committed
    exact hinv.2
  | defect d =>
    rw [hrtx]
    refine ⟨fun hs => absurd hs (by simp [finishTx]), fun e2 he => absurd he (by simp [finishTx]),
      fun d2 hd => ⟨?_, rfl⟩⟩
    show s2.db.committed = s.db.committed
    exact hinv.2

/-- Witness for C3: a body that writes row 1, then writes row 2 through a
nested reused transaction call, commits both writes; the committed rows equal
the previous (empty) rows followed by the issued trace. -/
theorem tx_commit_rollback_atomicity_witness :
    (runTx (Body.write 1 (Body.tx (Body.write 2 Body.done) Body.done))
        ⟨⟨[], none⟩, 0⟩).2.1.db.committed
      = ([] : List Nat) ++ (runTx (Body.write 1 (Body.tx (Body.write 2 Body.done) Body.done))
        ⟨⟨[], none⟩, 0⟩).2.2
    ∧ (runTx (Body.write 1 (Body.tx (Body.write 2 Body.done) Body.done))
        ⟨⟨[], none⟩, 0⟩).2.1.db.working = none :=
  (tx_commit_rollback_atomicity (Body.write 1 (Body.tx (Body.write 2 Body.done) Body.done))
    ⟨⟨[], none⟩, 0⟩ (by rfl)).1 (by rfl)

/-- C4: nested (reused) transaction calls.  First, whenever an ambient handle
is installed, running a nested transaction call is literally running its body
— no new transaction begins, no savepoint is created, release is a no-op.
Second, when an inner reused call's body fails but the failure is caught by
the outer body before escaping, the inner call's writes are not undone: if
the outer body then succeeds the commit contains the inner writes together
with the outer ones, and if the outer body then fails everything is rolled
back together. -/
theorem tx_nested_reuse_no_savepoints :
    (∀ (b : Body) (s : St) (w : List Nat), s.db.working = some w → runTx b s = runBody b s)
    ∧ (∀ (inner k : Body) (s : St) (e : Nat) (s1 : St) (tr1 : List Nat),
        s.db.working = none →
        runBody inner (beginTx s) = (.failure e, s1, tr1) →
        (∀ (s2 : St) (tr2 : List Nat), runBody k s1 = (.success, s2, tr2) →
          (runTx (.tryTx inner k) s).1 = Outcome.success
          ∧ (runTx (.tryTx inner k) s).2.1.db.committed = s.db.committed ++ (tr1 ++ tr2))
        ∧ (∀ (e2 : Nat) (s2 : St) (tr2 : List Nat), runBody k s1 = (.failure e2, s2, tr2) →
          (runTx (.tryTx inner k) s).1 = Outcome.failure e2
          ∧ (runTx (.tryTx inner k) s).2.1.db.committed = s.db.committed)) := by
  constructor
  · intro b s w h
    rw [runTx, h]
  · intro inner k s e s1 tr1 h hinner
    have hw : (beginTx s).db.working = some [] := rfl
    have hinv1 := runBody_working_invariant inner (beginTx s) [] hw
    rw [hinner] at hinv1
    simp only [List.nil_append] at hinv1
    have hs1w : s1.db.working = some tr1 := hinv1.1
    have hs1c : s1.db.committed = s.db.committed := hinv1.2
    have hbody : runBody (.tryTx inner k) (beginTx s)
        = ((runBody k s1).1, (runBody k s1).2.1, tr1 ++ (runBody k s1).2.2) := by
      show (match (match (beginTx s).db.working with
          | some _ => runBody inner (beginTx s)
          | none => finishTx (runBody inner (beginTx (beginTx s)))) with
        | (.success, s1, tr1) =>
          ((runBody k s1).1, (runBody k s1).2.1, tr1 ++ (runBody k s1).2.2)
        | (.failure _, s1, tr1) =>
          ((runBody k s1).1, (runBody k s1).2.1, tr1 ++ (runBody k s1).2.2)
        | (.defect d, s1, tr1) => (Outcome.defect d, s1, tr1))
        = ((runBody k s1).1, (runBody k s1).2.1, tr1 ++ (runBody k s1).2.2)
      rw [hw, hinner]
    have hinv2 := runBody_working_invariant k s1 tr1 hs1w
    constructor
    · intro s2 tr2 hk
      rw [hk] at hinv2
      have hrtx : runTx (.tryTx inner k) s
          = finishTx (.success, s2, tr1 ++ tr2) := by
        rw [runTx, h, hbody, hk]
      rw [hrtx]
      refine ⟨rfl, ?_⟩
      show s2.db.committed ++ s2.db.working.getD [] = s.db.committed ++ (tr1 ++ tr2)
      rw [hinv2.1, hinv2.2, hs1c]
      rfl
    · intro e2 s2 tr2 hk
      rw [hk] at hinv2
      have hrtx : runTx (.tryTx inner k) s
          = finishTx (.failure e2, s2, tr1 ++ tr2) := by
        rw [runTx, h, hbody, hk]
      rw [hrtx]
      refine ⟨rfl, ?_⟩
      show s2.db.committed = s.db.committed
      rw [hinv2.2, hs1c]

/-- Witness for C4: the inner reused call writes row 2 and fails; the failure
is caught by the outer body, which then writes row 3 and succeeds — the
commit contains both the inner write and the outer one. -/
theorem tx_nested_reuse_no_savepoints_witness :
    (runTx (.tryTx (Body.write 2 (Body.failB 7)) (Body.write 3 Body.done))
        ⟨⟨[], none⟩, 0⟩).1 = Outcome.success
    ∧ (runTx (.tryTx (Body.write 2 (Body.failB 7)) (Body.write 3 Body.done))
        ⟨⟨[], none⟩, 0⟩).2.1.db.committed = ([] : List Nat) ++ ([2] ++ [3]) :=
  (tx_nested_reuse_no_savepoints.2 (Body.write 2 (Body.failB 7)) (Body.write 3 Body.done)
    ⟨⟨[], none⟩, 0⟩ 7 ⟨⟨[], some [2]⟩, 0⟩ [2] (by rfl) (by rfl)).1
    ⟨⟨[], some [2, 3]⟩, 0⟩ [3] (by rfl)

/-- C9: the transaction body runs in the caller's own execution context.  The
caller-owned mutable value after the transaction operation returns is exactly
the value the body's own run left — on the commit path and on the rollback
path alike — and in particular a mutation performed inside the body (to a
value readable before entering it) is visible to the caller afterwards both
when the body succeeds and when it fails. -/
theorem tx_context_visibility :
    (∀ (b : Body) (s : St), s.db.working = none →
      (runTx b s).2.1.var = (runBody b (beginTx s)).2.1.var)
    ∧ (∀ (s : St) (v : Nat), s.db.working = none →
      (runTx (.setVar v .done) s).1 = Outcome.success
      ∧ (runTx (.setVar v .done) s).2.1.var = v)
    ∧ (∀ (s : St) (v e : Nat), s.db.working = none →
      (runTx (.setVar v (.failB e)) s).1 = Outcome.failure e
      ∧ (runTx (.setVar v (.failB e)) s).2.1.var = v) := by
  refine ⟨?_, ?_, ?_⟩
  · intro b s h
    rw [runTx, h, finishTx_var]
  · intro s v h
    rw [runTx, h]
    exact ⟨rfl, rfl⟩
  · intro s v e h
    rw [runTx, h]
    exact ⟨rfl, rfl⟩

/-- Witness for C9: a body that sets the caller's mutable value to 5 and then
fails: the transaction rolls back, yet the caller sees the mutated value. -/
theorem tx_context_visibility_witness :
    (runTx (.setVar 5 (.failB 3)) ⟨⟨[1], none⟩, 0⟩).1 = Outcome.failure 3
    ∧ (runTx (.setVar 5 (.failB 3)) ⟨⟨[1], none⟩, 0⟩).2.1.var = 5 :=
  tx_context_visibility.2.2 ⟨⟨[1], none⟩, 0⟩ 5 3 (by rfl)

/-- C8: the classifier produces, for every raw store error, a typed failure
whose kind is determined by the raw error's code alone (the static
code-to-kind table), carrying the raw error as cause and the invoking
operation and model names; and creating a user with a duplicate email inside
`create` yields a unique-constraint typed failure with operation "create",
model "User" and cause code P2002. -/
theorem classify_static_table_unique_constraint :
    (∀ (r1 r2 : RawError) (op1 m1 op2 m2 : String), r1.code = r2.code →
      (classify r1 op1 m1).kind = (classify r2 op2 m2).kind)
    ∧ (∀ (r : RawError) (op m : String),
      (classify r op m).cause = r ∧ (classify r op m).operation = op
      ∧ (classify r op m).model = m)
    ∧ (∀ (store : List String) (email : String), email ∈ store →
      createUser store email
        = .error { kind := ErrorKind.uniqueConstraint, cause := ⟨("P2002")⟩,
                   operation := ("create"), model := ("User") }) := by
  refine ⟨?_, ?_, ?_⟩
  · intro r1 r2 op1 m1 op2 m2 hcode
    show codeToKind r1.code = codeToKind r2.code
    rw [hcode]
  · intro r op m
    exact ⟨rfl, rfl, rfl⟩
  · intro store email hmem
    rw [createUser, if_pos hmem]
    rfl

/-- Witness for C8: two raw errors with the same code P2002 classify to the
same kind under different operations and models, and the duplicate-email
create scenario produces the unique-constraint typed failure. -/
theorem classify_static_table_unique_constraint_witness :
    (classify ⟨("P2002")⟩ ("create") ("User")).kind
      = (classify ⟨("P2002")⟩ ("update") ("Post")).kind
    ∧ createUser [("a@x.com")] ("a@x.com")
      = .error { kind := ErrorKind.uniqueConstraint, cause := ⟨("P2002")⟩,
                 operation := ("create"), model := ("User") } :=
  ⟨classify_static_table_unique_constraint.1 ⟨("P2002")⟩ ⟨("P2002")⟩
     ("create") ("User") ("update") ("Post") (by rfl),
   classify_static_table_unique_constraint.2.2 [("a@x.com")] ("a@x.com")
     (by decide)⟩
